import Mathlib

/-!
Shallow embedding of `nested_sampling/nested_integrator.py`.

The module has two functions:

* `integrate_remainder(sampler, logwidth, logVolremaining, logZ, H, globalLmax)`
  bounds the evidence mass still held by the live points;
* `nested_integrator(sampler, tolerance, max_samples, need_small_remainder,
  max_remainder, need_robust_remainder_error)` is the main integration loop.

Floats are modelled as real numbers (`ℝ`).  `(·)**0.5` is modelled as
`Real.sqrt` (they agree for non-negative arguments, which is the documented
normal operation).  The sampler is an external collaborator: we model it as a
record of functions of the number of `next()` calls made so far, and the
`numpy.random.randint` draws of the bootstrap as an explicit oracle argument
(a list of index lists, one per bootstrap round).  Log-space values are
ordinarily finite; the one place where `-infinity` semantics matters (the
identity-element property of the accumulator merge) is modelled separately on
`Option ℝ` with `none` playing the role of `-infinity`.
-/

noncomputable section
open scoped Classical

/-- A sampler point `(u, x, L)`: unit-cube position, transformed position and
log-likelihood.  Only `L` enters the numerics. -/
structure Point where
  u : List ℝ
  x : List ℝ
  L : ℝ

/-- Default point used for total versions of partial list accesses (the
Python source would raise `IndexError` instead; all claims assume a
non-empty live set). -/
def defaultPoint : Point := ⟨[], [], 0⟩

/-- Model of `numpy.logaddexp` on finite floats: `log(exp a + exp b)`. -/
def logaddexp (a b : ℝ) : ℝ := Real.log (Real.exp a + Real.exp b)

/-- The five values returned by `integrate_remainder` (line 100 of the
source): `logV + logLmid`, `logZerr`, `logZmid`, `logZerr + (H/N)**0.5`,
`bs_logZerr + (H/N)**0.5`. -/
structure RemainderResult where
  remainderZ : ℝ
  remainderZerr : ℝ
  totalZ : ℝ
  totalZerr : ℝ
  totalZerr_bootstrapped : ℝ

/-- Source line 49, `L0 = remainder[-1][2]`: the log-likelihood of the LAST entry
of the live set (the live set is sorted ascending by likelihood, so this is
the highest live likelihood). -/
def remainderL0 (pts : List Point) : ℝ := (pts.getLastD defaultPoint).L

/-- Source line 51, `Ls = numpy.exp([Li - L0 for ui, xi, Li in remainder])`. -/
def rebasedLs (pts : List Point) : List ℝ :=
  pts.map (fun p => Real.exp (p.L - remainderL0 pts))

/-- Source lines 52-53, `LsMax = Ls.copy(); LsMax[-1] = numpy.exp(globalLmax - L0)`
(lines 52-53): the rebased sequence with its last entry replaced. -/
def rebasedLsMax (pts : List Point) (globalLmax : ℝ) : List ℝ :=
  (rebasedLs pts).dropLast ++ [Real.exp (globalLmax - remainderL0 pts)]

/-- Source line 71, `Lmax = LsMax[1:].sum() + LsMax[-1]`. -/
def upperSum (pts : List Point) (globalLmax : ℝ) : ℝ :=
  ((rebasedLsMax pts globalLmax).drop 1).sum + (rebasedLsMax pts globalLmax).getLastD 0

/-- Source line 73, `Lmin = Ls[:-1].sum() + Ls[0]`. -/
def lowerSum (pts : List Point) : ℝ :=
  (rebasedLs pts).dropLast.sum + (rebasedLs pts).headD 0

/-- Source lines 74-75, `logZmid = logaddexp(logZ, logV + log(Ls.sum()) + L0)`. -/
def logZmidOf (pts : List Point) (logZ logwidth : ℝ) : ℝ :=
  logaddexp logZ (logwidth + (Real.log (rebasedLs pts).sum + remainderL0 pts))

/-- Source line 76, `logZup = logaddexp(logZ, logV + log(Lmax) + L0)`. -/
def logZupOf (pts : List Point) (logZ logwidth globalLmax : ℝ) : ℝ :=
  logaddexp logZ (logwidth + Real.log (upperSum pts globalLmax) + remainderL0 pts)

/-- Source line 77, `logZlo = logaddexp(logZ, logV + log(Lmin) + L0)`. -/
def logZloOf (pts : List Point) (logZ logwidth : ℝ) : ℝ :=
  logaddexp logZ (logwidth + Real.log (lowerSum pts) + remainderL0 pts)

/-- Maximum of a list of reals (`numpy.max`; 0 on the empty list, which the
source never hits since it always collects 40 bootstrap values). -/
def listMax : List ℝ → ℝ
  | [] => 0
  | a :: as => as.foldl max a

/-- Minimum of a list of reals (`numpy.min`). -/
def listMin : List ℝ → ℝ
  | [] => 0
  | a :: as => as.foldl min a

/-- One bootstrap round (lines 83-90): given the random index vector `idx`
(`numpy.random.randint(0, len(Ls), len(Ls))`), sort it, gather from
`LsMax`/`Ls`, recompute the upper/lower edge sums, and form the two
`logaddexp` values appended to `bs_logZmids`. -/
def bootstrapRound (pts : List Point) (logZ logwidth globalLmax : ℝ)
    (idx : List ℕ) : List ℝ :=
  let srt := List.insertionSort (· ≤ ·) idx
  let bsU := srt.map (fun j => (rebasedLsMax pts globalLmax).getD j 0)
  let bsL := srt.map (fun j => (rebasedLs pts).getD j 0)
  let up := (bsU.drop 1).sum + bsU.getLastD 0
  let lo := bsL.dropLast.sum + bsL.headD 0
  [logaddexp logZ (logwidth + Real.log up + remainderL0 pts),
   logaddexp logZ (logwidth + Real.log lo + remainderL0 pts)]

/-- All collected bootstrap values `bs_logZmids` (lines 81-90); the source
runs exactly 20 rounds, i.e. `rs` has length 20 with each entry a vector of
`len(Ls)` indices below `len(Ls)`. -/
def bootstrapVals (pts : List Point) (logZ logwidth globalLmax : ℝ)
    (rs : List (List ℕ)) : List ℝ :=
  (rs.map (bootstrapRound pts logZ logwidth globalLmax)).flatten

/-- Source line 91, `bs_logZerr = numpy.max(bs_logZmids) - numpy.min(bs_logZmids)`
(line 91). -/
def bootstrapZerr (pts : List Point) (logZ logwidth globalLmax : ℝ)
    (rs : List (List ℕ)) : ℝ :=
  listMax (bootstrapVals pts logZ logwidth globalLmax rs)
    - listMin (bootstrapVals pts logZ logwidth globalLmax rs)

/-- The evidence-accumulator merge (lines 95-98 and 190-193 of the source):
`logZnew = logaddexp(logZ, wi)`;
`Hnew = exp(wi - logZnew)*Li + exp(logZ - logZnew)*(H + logZ) - logZnew`,
with mass `wi = logwidth + Li`. -/
def merge (logZ H wi Li : ℝ) : ℝ × ℝ :=
  let logZnew := logaddexp logZ wi
  (logZnew,
   Real.exp (wi - logZnew) * Li + Real.exp (logZ - logZnew) * (H + logZ) - logZnew)

/-- The loop at lines 93-98 of `integrate_remainder`: fold the accumulator
merge over the live points, starting from the `(logZ, H)` passed in by the
caller. -/
def foldLive (logZ H logwidth : ℝ) (pts : List Point) : ℝ × ℝ :=
  pts.foldl (fun acc p => merge acc.1 acc.2 (logwidth + p.L) p.L) (logZ, H)

/-- Embedding of `integrate_remainder` (lines 45-100).  Arguments follow the Python
signature; the live set `pts` stands for `sampler.remainder()`, `nlive` for
`sampler.nlive_points`, and `rs` for the bootstrap randomness.  Note that
`logVolremaining` is accepted but never read (the source sets
`logV = logwidth`), and that the `H` used in the last two outputs is the one
recomputed by the fold over the live points. -/
def integrate_remainder (pts : List Point)
    (logwidth logVolremaining logZ H globalLmax : ℝ) (nlive : ℕ)
    (rs : List (List ℕ)) : RemainderResult :=
  { remainderZ := logwidth + (Real.log (rebasedLs pts).sum + remainderL0 pts)
    remainderZerr := logZupOf pts logZ logwidth globalLmax - logZloOf pts logZ logwidth
    totalZ := logZmidOf pts logZ logwidth
    totalZerr := (logZupOf pts logZ logwidth globalLmax - logZloOf pts logZ logwidth)
      + Real.sqrt ((foldLive logZ H logwidth pts).2 / nlive)
    totalZerr_bootstrapped := bootstrapZerr pts logZ logwidth globalLmax rs
      + Real.sqrt ((foldLive logZ H logwidth pts).2 / nlive) }

/-! ### Extended (`-infinity`) semantics of the accumulator merge

`numpy` floats include `-inf`; we model `ℝ ∪ \x7b-∞\x7d` as `Option ℝ` with
`none` for `-infinity`.  `exp(-inf) = 0` and `logaddexp(a, -inf) = a`. -/

/-- Exponential on `ℝ ∪ \x7b-∞\x7d`: `exp(-inf) = 0`. -/
def xexp : Option ℝ → ℝ
  | none => 0
  | some a => Real.exp a

/-- Subtraction of a finite value on `ℝ ∪ \x7b-∞\x7d`: `-inf - b = -inf`. -/
def xsub (w : Option ℝ) (b : ℝ) : Option ℝ := w.map (fun a => a - b)

/-- Model of `numpy.logaddexp` with a finite first argument and a possibly `-infinite`
second argument; the result is finite. -/
def logaddexpFin (a : ℝ) (w : Option ℝ) : ℝ :=
  match w with
  | none => a
  | some b => Real.log (Real.exp a + Real.exp b)

/-- The accumulator merge of lines 190-193 with finite `logZ`, `H`, `Li` and
a point mass `wi` that may be `-infinity`. -/
def mergeExt (logZ H : ℝ) (wi : Option ℝ) (Li : ℝ) : ℝ × ℝ :=
  let logZnew := logaddexpFin logZ wi
  (logZnew,
   xexp (xsub wi logZnew) * Li + Real.exp (logZ - logZnew) * (H + logZ) - logZnew)

/-! ### The main loop `nested_integrator` -/

/-- Reason the `while True` loop broke out (lines 171-184). -/
inductive StopReason
  | budget
  | tolerance
  | diminishing

/-- Configuration surface of `nested_integrator` (line 123-126). -/
structure Config where
  tolerance : ℝ
  max_samples : Option ℕ
  need_small_remainder : Bool
  max_remainder : ℝ
  need_robust_remainder_error : Bool

/-- The external sampler, as a function of the number of `next()` calls made
so far: `stream k` is the point returned by the `(k+1)`-st call to `next()`,
and `ndraws k`, `Lmax k`, `remainder k` are the values of the corresponding
attributes after `k` calls. -/
structure SamplerModel where
  nlive_points : ℕ
  stream : ℕ → Point
  ndraws : ℕ → ℕ
  Lmax : ℕ → ℝ
  remainder : ℕ → List Point

/-- Source lines 128 and 145, `logwidth = log(1 - exp(-1/nlive_points)) + logVolremaining`
(lines 128 and 145). -/
def logw (N : ℕ) (logVolremaining : ℝ) : ℝ :=
  Real.log (1 - Real.exp (-1 / N)) + logVolremaining

/-- Source line 150, `logZerr = (H / sampler.nlive_points)**0.5`, the
per-iteration statistical error term. -/
def statError (H : ℝ) (N : ℕ) : ℝ := Real.sqrt (H / N)

/-- The stopping decision of lines 168-184: checked only when
`i > nlive_points`; first the sample budget (line 171), then the tolerance
rule (line 175), then the diminishing-returns rule (line 181), each with the
exact conditions of the source.  `nd` is `sampler.ndraws` and `m` holds the
most recently computed remainder metrics. -/
def checkStop (cfg : Config) (N : ℕ) (nd : ℕ) (i : ℕ) (H : ℝ)
    (m : RemainderResult) : Option StopReason :=
  if N < i then
    if (match cfg.max_samples with
        | some ms => ms < nd
        | none => False) then some .budget
    else if m.totalZerr < cfg.tolerance
        ∧ (cfg.need_small_remainder = false
            ∨ m.remainderZ < m.totalZ + Real.log cfg.max_remainder)
        ∧ (cfg.need_robust_remainder_error = false
            ∨ m.totalZerr_bootstrapped < cfg.tolerance) then some .tolerance
    else if m.remainderZerr < statError H N / 10 then some .diminishing
    else none
  else none

/-- The mutable state of the `while True` loop: iteration counter `i`,
number `k` of `next()` calls made so far, the point `cur` drawn most
recently, the integration scalars, the append-only weight records (point
paired with its recorded `logwidth`), and the most recently computed
remainder metrics. -/
structure LoopState where
  i : ℕ
  k : ℕ
  cur : Point
  logwidth : ℝ
  logVolremaining : ℝ
  logZ : ℝ
  H : ℝ
  weights : List (Point × ℝ)
  metrics : RemainderResult

/-- The state after lines 127-141: the first point is drawn and seeds
`logZ = logwidth + L`, `H = L - logZ`. -/
def initState (S : SamplerModel) : LoopState :=
  let p := S.stream 0
  let lw := logw S.nlive_points 0
  { i := 0
    k := 1
    cur := p
    logwidth := lw
    logVolremaining := 0
    logZ := lw + p.L
    H := p.L - (lw + p.L)
    weights := []
    metrics := ⟨0, 0, 0, 0, 0⟩ }

/-- One pass through the `while True` body (lines 143-193), in source order:
advance `i`, update `logwidth` and `logVolremaining`, append the weight
record for the current point, recompute the remainder metrics when
`i == 1 or (i > nlive_points and i % 10 == 1)`, evaluate the stopping
predicates, and — if no break fired — draw the next point and merge it into
the accumulator.  `rand i` supplies the bootstrap randomness of iteration
`i`.  Returns the state at the break point together with the break reason,
or the state ready for the next pass. -/
def loopIter (S : SamplerModel) (cfg : Config) (rand : ℕ → List (List ℕ))
    (s : LoopState) : LoopState × Option StopReason :=
  let i := s.i + 1
  let lw := logw S.nlive_points s.logVolremaining
  let lv := s.logVolremaining - 1 / S.nlive_points
  let ws := s.weights ++ [(s.cur, lw)]
  let m := if i = 1 ∨ (S.nlive_points < i ∧ i % 10 = 1)
    then integrate_remainder (S.remainder s.k) lw lv s.logZ s.H (S.Lmax s.k)
      S.nlive_points (rand i)
    else s.metrics
  match checkStop cfg S.nlive_points (S.ndraws s.k) i s.H m with
  | some r =>
      ({ s with i := i, logwidth := lw, logVolremaining := lv,
                weights := ws, metrics := m }, some r)
  | none =>
      let p := S.stream s.k
      let nxt := merge s.logZ s.H (lw + p.L) p.L
      ({ i := i, k := s.k + 1, cur := p, logwidth := lw, logVolremaining := lv,
         logZ := nxt.1, H := nxt.2, weights := ws, metrics := m }, none)

/-- Iterate `loopIter` up to `fuel` times, stopping early at the first
break; the source loop has no fuel bound (it runs until a break fires). -/
def runLoop (S : SamplerModel) (cfg : Config) (rand : ℕ → List (List ℕ)) :
    ℕ → LoopState → LoopState × Option StopReason
  | 0, s => (s, none)
  | fuel + 1, s =>
      match loopIter S cfg rand s with
      | (s1, some r) => (s1, some r)
      | (s1, none) => runLoop S cfg rand fuel s1

/-- The result record of `nested_integrator` (lines 201-203); `samples` is
pass-through and omitted. -/
structure NSResult where
  logZ : ℝ
  logZerr : ℝ
  weights : List (Point × ℝ)
  information : ℝ
  niterations : ℕ

/-- The code after the loop (lines 195-203): one final remainder
integration, the live points appended as weight records at the current
`logwidth`, and the robust error selection. -/
def finalize (S : SamplerModel) (cfg : Config) (rand : ℕ → List (List ℕ))
    (s : LoopState) : NSResult :=
  let m := integrate_remainder (S.remainder s.k) s.logwidth s.logVolremaining
    s.logZ s.H (S.Lmax s.k) S.nlive_points (rand (s.i + 1))
  { logZ := m.totalZ
    logZerr := if cfg.need_robust_remainder_error
      then max m.totalZerr m.totalZerr_bootstrapped else m.totalZerr
    weights := s.weights ++ (S.remainder s.k).map (fun p => (p, s.logwidth))
    information := s.H
    niterations := s.i }

/-- Embedding of `nested_integrator` (lines 123-203), with an explicit iteration bound
`fuel` standing for the unbounded `while True`. -/
def nested_integrator (S : SamplerModel) (cfg : Config)
    (rand : ℕ → List (List ℕ)) (fuel : ℕ) : NSResult :=
  finalize S cfg rand (runLoop S cfg rand fuel (initState S)).1

/-! ### Concrete instances used to exercise the theorems -/

/-- A point with log-likelihood `c` and empty coordinate vectors. -/
def mkpt (c : ℝ) : Point := ⟨[], [], c⟩

/-- A live set of `n` points all at log-likelihood `c`. -/
def constLive (n : ℕ) (c : ℝ) : List Point := List.replicate n (mkpt c)

/-- A concrete sampler with two live points. -/
def sampler0 : SamplerModel :=
  ⟨2, fun _ => defaultPoint, fun k => k, fun _ => 0, fun _ => [defaultPoint]⟩

/-- A concrete configuration: tolerance 1, no sample budget, remainder and
bootstrap checks off. -/
def config0 : Config := ⟨1, none, false, 1, false⟩

/-- A concrete bootstrap-randomness oracle: every round resamples index 0. -/
def rand0 : ℕ → List (List ℕ) := fun _ => List.replicate 20 [0]

/-- A concrete loop state just after initialisation. -/
def state0 : LoopState := ⟨0, 1, defaultPoint, 0, 0, 0, 0, [], ⟨0, 0, 0, 0, 0⟩⟩

/-! ### Helper lemmas -/

theorem le_logaddexp (z w : ℝ) : z ≤ logaddexp z w := by
  rw [logaddexp, Real.le_log_iff_exp_le (by positivity)]
  linarith [Real.exp_pos w]

theorem getD_map_of_lt {α β : Type} (f : α → β) (l : List α) (i : ℕ) (d : α)
    (d2 : β) (h : i < l.length) : (l.map f).getD i d2 = f (l.getD i d) := by
  induction l generalizing i with
  | nil => simp at h
  | cons a as ih =>
    cases i with
    | zero => simp
    | succ n => simpa using ih n (by simpa using h)

theorem getLastD_replicate_eq {α : Type} (n : ℕ) (hn : 0 < n) (a d : α) :
    (List.replicate n a).getLastD d = a := by
  induction n generalizing d with
  | zero => exact absurd hn (lt_irrefl 0)
  | succ m ih =>
    rw [List.replicate_succ, List.getLastD_cons]
    cases Nat.eq_zero_or_pos m with
    | inl h0 => subst h0; rfl
    | inr hm => exact ih hm a

theorem dropLast_replicate_eq {α : Type} (n : ℕ) (a : α) :
    (List.replicate n a).dropLast = List.replicate (n - 1) a := by
  cases n with
  | zero => rfl
  | succ m => rw [List.replicate_succ' m a, List.dropLast_concat, Nat.add_sub_cancel]

theorem headD_replicate_eq {α : Type} (n : ℕ) (hn : 0 < n) (a d : α) :
    (List.replicate n a).headD d = a := by
  obtain ⟨k, rfl⟩ := Nat.exists_eq_succ_of_ne_zero hn.ne'
  rfl

/-- The extended merge agrees with the plain real-valued merge on finite
masses. -/
theorem mergeExt_coe (logZ H wi Li : ℝ) :
    mergeExt logZ H (some wi) Li = merge logZ H wi Li := by
  simp [mergeExt, merge, logaddexpFin, xexp, xsub, logaddexp]

/-! ### Claim theorems -/

/-- C8: the accumulator merge (lines 190-193) has `-infinity` mass as an
identity element: for every finite `logZ` and `H` (and finite log-likelihood
`Li`), merging a point whose mass `wi` is `-infinity` returns `logZ` and `H`
unchanged. -/
theorem mergeExt_bot_identity (logZ H Li : ℝ) :
    mergeExt logZ H none Li = (logZ, H) := by
  simp [mergeExt, logaddexpFin, xexp, xsub]

/-- C6: in every pass through the loop body, `logVolremaining` decreases
strictly, by exactly `1/nlive_points` (lines 145-146), and `logZ` never
decreases (it changes only by the log-sum-exp merge of lines 190-193, and
`logaddexp z w ≥ z` for every mass `w`). -/
theorem loopIter_monotone (S : SamplerModel) (cfg : Config)
    (rand : ℕ → List (List ℕ)) (s : LoopState) (hN : 0 < S.nlive_points) :
    ((loopIter S cfg rand s).1.logVolremaining
        = s.logVolremaining - 1 / S.nlive_points
      ∧ (loopIter S cfg rand s).1.logVolremaining < s.logVolremaining
      ∧ s.logZ ≤ (loopIter S cfg rand s).1.logZ)
    ∧ ∀ z w : ℝ, z ≤ logaddexp z w := by
  have hstep : (0:ℝ) < 1 / S.nlive_points := by
    have : (0:ℝ) < S.nlive_points := by exact_mod_cast hN
    positivity
  refine ⟨?_, le_logaddexp⟩
  simp only [loopIter]
  split
  · exact ⟨rfl, by simpa using hstep, le_refl _⟩
  · exact ⟨rfl, by simpa using hstep, le_logaddexp _ _⟩

/-- C6 witness: the monotonicity facts at a concrete sampler, configuration
and loop state. -/
theorem loopIter_monotone_witness :
    0 < sampler0.nlive_points
    ∧ (((loopIter sampler0 config0 rand0 state0).1.logVolremaining
          = state0.logVolremaining - 1 / sampler0.nlive_points
        ∧ (loopIter sampler0 config0 rand0 state0).1.logVolremaining
          < state0.logVolremaining
        ∧ state0.logZ ≤ (loopIter sampler0 config0 rand0 state0).1.logZ)
      ∧ ∀ z w : ℝ, z ≤ logaddexp z w) :=
  ⟨by decide, loopIter_monotone sampler0 config0 rand0 state0 (by decide)⟩

/-- C3 counterexample: a stopping check at which `ndraws` has exactly reached
`max_samples` (5 draws, budget 5, `i = 2 > nlive_points = 1`, all other rules
arranged false) does NOT stop the loop: the source breaks only on
`int(max_samples) < int(sampler.ndraws)`, a strict comparison. -/
theorem checkStop_budget_at_equality :
    (5:ℕ) ≤ 5
    ∧ checkStop ⟨0, some 5, true, 1, false⟩ 1 5 2 0 ⟨0, 1, 0, 1, 1⟩ = none := by
  refine ⟨le_refl 5, ?_⟩
  norm_num [checkStop, statError, Real.sqrt_zero]

/-- C3 (amended): once more than `nlive_points` iterations have elapsed, the
budget rule (line 171) fires exactly when a maximum sample count is
configured and the sampler's cumulative draw count STRICTLY exceeds it; the
loop then breaks and the function still returns its current estimate
normally. -/
theorem checkStop_budget_iff (cfg : Config) (N nd i : ℕ) (H : ℝ)
    (m : RemainderResult) :
    checkStop cfg N nd i H m = some StopReason.budget
      ↔ N < i ∧ ∃ ms, cfg.max_samples = some ms ∧ ms < nd := by
  rcases hms : cfg.max_samples with _ | ms <;>
    simp only [checkStop, hms] <;>
    split_ifs with h1 h2 h3 h4 <;>
    simp_all

/-- C4: stopping predicates are never evaluated before more than
`nlive_points` iterations have elapsed, and once they are, with the budget
rule not firing, the tolerance rule (line 175) stops the loop exactly when
`totalZerr < tolerance`, AND (`need_small_remainder` is off OR
`remainderZ < totalZ + log max_remainder`), AND
(`need_robust_remainder_error` is off OR
`totalZerr_bootstrapped < tolerance`), all read from the most recently
computed remainder metrics `m`. -/
theorem checkStop_tolerance_iff (cfg : Config) (N nd i : ℕ) (H : ℝ)
    (m : RemainderResult) :
    (i ≤ N → checkStop cfg N nd i H m = none)
    ∧ (N < i → ¬ (∃ ms, cfg.max_samples = some ms ∧ ms < nd) →
        (checkStop cfg N nd i H m = some StopReason.tolerance
          ↔ m.totalZerr < cfg.tolerance
            ∧ (cfg.need_small_remainder = false
                ∨ m.remainderZ < m.totalZ + Real.log cfg.max_remainder)
            ∧ (cfg.need_robust_remainder_error = false
                ∨ m.totalZerr_bootstrapped < cfg.tolerance))) := by
  constructor
  · intro hle
    simp only [checkStop, if_neg (by omega : ¬ N < i)]
  · intro hi hb
    rcases hms : cfg.max_samples with _ | ms <;>
      simp only [checkStop, hms] <;>
      split_ifs with h1 h2 h3 h4 <;>
      simp_all

/-- C4 witness: at a concrete configuration with both optional checks off and
`totalZerr = 0 < 1 = tolerance`, past the live-set size and with no budget,
the tolerance rule fires. -/
theorem checkStop_tolerance_iff_witness :
    (1 < 2)
    ∧ ¬ (∃ ms, (⟨1, none, false, 1, false⟩ : Config).max_samples = some ms ∧ ms < 0)
    ∧ checkStop ⟨1, none, false, 1, false⟩ 1 0 2 0 ⟨0, 0, 0, 0, 0⟩
        = some StopReason.tolerance := by
  refine ⟨by norm_num, by simp, ?_⟩
  exact ((checkStop_tolerance_iff ⟨1, none, false, 1, false⟩ 1 0 2 0
      ⟨0, 0, 0, 0, 0⟩).2 (by norm_num) (by simp)).mpr
    ⟨by norm_num, Or.inl rfl, Or.inl rfl⟩

/-- C5: at a stopping check (past `nlive_points` iterations, budget and
tolerance rules not firing), the diminishing-returns rule (line 181) fires
exactly when `remainderZerr < sqrt(H / nlive_points) / 10`; the comparison is
against the per-iteration statistical error term recomputed from the current
`H` (line 150), not against the tolerance. -/
theorem checkStop_diminishing_iff (cfg : Config) (N nd i : ℕ) (H : ℝ)
    (m : RemainderResult) (hi : N < i)
    (hb : ¬ (∃ ms, cfg.max_samples = some ms ∧ ms < nd))
    (ht : ¬ (m.totalZerr < cfg.tolerance
        ∧ (cfg.need_small_remainder = false
            ∨ m.remainderZ < m.totalZ + Real.log cfg.max_remainder)
        ∧ (cfg.need_robust_remainder_error = false
            ∨ m.totalZerr_bootstrapped < cfg.tolerance))) :
    checkStop cfg N nd i H m = some StopReason.diminishing
      ↔ m.remainderZerr < Real.sqrt (H / N) / 10 := by
  rcases hms : cfg.max_samples with _ | ms <;>
    simp only [checkStop, statError, hms] <;>
    split_ifs with h1 h2 h3 h4 <;>
    simp_all

/-- C5 witness: with `H = 100` and `nlive_points = 1` the statistical error
is `sqrt 100 = 10`, and a remainder error of `0 < 10 / 10` makes the
diminishing-returns rule fire at a concrete check. -/
theorem checkStop_diminishing_iff_witness :
    (1 < 2)
    ∧ ¬ (∃ ms, (⟨0, none, true, 1, false⟩ : Config).max_samples = some ms ∧ ms < 0)
    ∧ ¬ ((⟨0, 0, 0, 1, 0⟩ : RemainderResult).totalZerr
          < (⟨0, none, true, 1, false⟩ : Config).tolerance
        ∧ ((⟨0, none, true, 1, false⟩ : Config).need_small_remainder = false
            ∨ (⟨0, 0, 0, 1, 0⟩ : RemainderResult).remainderZ
              < (⟨0, 0, 0, 1, 0⟩ : RemainderResult).totalZ
                + Real.log (⟨0, none, true, 1, false⟩ : Config).max_remainder)
        ∧ ((⟨0, none, true, 1, false⟩ : Config).need_robust_remainder_error = false
            ∨ (⟨0, 0, 0, 1, 0⟩ : RemainderResult).totalZerr_bootstrapped
              < (⟨0, none, true, 1, false⟩ : Config).tolerance))
    ∧ checkStop ⟨0, none, true, 1, false⟩ 1 0 2 100 ⟨0, 0, 0, 1, 0⟩
        = some StopReason.diminishing := by
  have h100 : Real.sqrt ((100:ℝ) / (1:ℕ)) = 10 := by
    rw [Nat.cast_one, div_one, show (100:ℝ) = 10 ^ 2 by norm_num,
      Real.sqrt_sq (by norm_num)]
  refine ⟨by norm_num, by simp, by norm_num, ?_⟩
  exact (checkStop_diminishing_iff ⟨0, none, true, 1, false⟩ 1 0 2 100
      ⟨0, 0, 0, 1, 0⟩ (by norm_num) (by simp) (by norm_num)).mpr
    (by rw [h100]; norm_num)

/-- C7: the upper-bound sequence is the rebased live sequence with its last
(best) entry replaced by `exp(globalLmax - L0)` (same length, same prefix);
the upper sum is the sum of that sequence without its first entry plus its
last entry again, the lower sum is the sum of the unmodified rebased
sequence without its last entry plus its first entry again, and the returned
`remainderZerr` is `logZup - logZlo` with
`logZup = logaddexp(logZ, logwidth + log(upper) + L0)` and
`logZlo = logaddexp(logZ, logwidth + log(lower) + L0)` (lines 71-78). -/
theorem integrate_remainder_bracket (pts : List Point)
    (lw lv lz H gl : ℝ) (N : ℕ) (rs : List (List ℕ)) (h : pts ≠ []) :
    ((rebasedLsMax pts gl).dropLast = (rebasedLs pts).dropLast
      ∧ (rebasedLsMax pts gl).getLastD 0 = Real.exp (gl - remainderL0 pts)
      ∧ (rebasedLsMax pts gl).length = pts.length)
    ∧ (integrate_remainder pts lw lv lz H gl N rs).remainderZerr
        = logaddexp lz (lw + Real.log (((rebasedLsMax pts gl).drop 1).sum
            + (rebasedLsMax pts gl).getLastD 0) + remainderL0 pts)
          - logaddexp lz (lw + Real.log ((rebasedLs pts).dropLast.sum
            + (rebasedLs pts).headD 0) + remainderL0 pts) := by
  refine ⟨⟨?_, ?_, ?_⟩, rfl⟩
  · rw [rebasedLsMax, List.dropLast_concat]
  · rw [rebasedLsMax, List.getLastD_concat]
  · rw [rebasedLsMax, List.length_append, List.length_singleton,
      List.length_dropLast, rebasedLs, List.length_map]
    have : 0 < pts.length := List.length_pos.mpr h
    omega

/-- C7 witness: the bracket facts at a concrete one-point live set. -/
theorem integrate_remainder_bracket_witness :
    ([defaultPoint] : List Point) ≠ []
    ∧ (((rebasedLsMax [defaultPoint] 0).dropLast
          = (rebasedLs [defaultPoint]).dropLast
        ∧ (rebasedLsMax [defaultPoint] 0).getLastD 0
          = Real.exp (0 - remainderL0 [defaultPoint])
        ∧ (rebasedLsMax [defaultPoint] 0).length
          = ([defaultPoint] : List Point).length)
      ∧ (integrate_remainder [defaultPoint] 0 0 0 0 0 1
            (List.replicate 20 [0])).remainderZerr
          = logaddexp 0 (0 + Real.log (((rebasedLsMax [defaultPoint] 0).drop 1).sum
              + (rebasedLsMax [defaultPoint] 0).getLastD 0)
              + remainderL0 [defaultPoint])
            - logaddexp 0 (0 + Real.log ((rebasedLs [defaultPoint]).dropLast.sum
              + (rebasedLs [defaultPoint]).headD 0) + remainderL0 [defaultPoint])) :=
  ⟨by simp, integrate_remainder_bracket [defaultPoint] 0 0 0 0 0 1
    (List.replicate 20 [0]) (by simp)⟩

/-- C2 counterexample: for the ascending live set with log-likelihoods
`[0, 1]`, rebasing by the FIRST (lowest) entry would give `[exp 0, exp 1]`,
but the code (line 49, `L0 = remainder[-1][2]`) rebases by the last entry
and produces `[exp (0-1), exp (1-1)]` instead. -/
theorem rebasedLs_not_lowest :
    rebasedLs [mkpt 0, mkpt 1] ≠ [Real.exp (0 - 0), Real.exp (1 - 0)] := by
  intro hEq
  have h1 : Real.exp (0 - 1) = Real.exp (0 - 0) := by
    have := congrArg (fun l => l.headD 0) hEq
    simpa [rebasedLs, remainderL0, mkpt] using this
  rw [Real.exp_eq_exp] at h1
  norm_num at h1

/-- C2 (amended): the rebasing base `L0` is the log-likelihood of the LAST
entry of the (ascending) live set — the highest live likelihood — and every
rebased value satisfies `Ls[i] = exp(L_i - L0)` with that `L0`. -/
theorem rebasedLs_rebases_by_last (pts : List Point) (i : ℕ)
    (h : i < pts.length) :
    (rebasedLs pts).getD i 0
      = Real.exp ((pts.getD i defaultPoint).L - (pts.getLastD defaultPoint).L) := by
  rw [rebasedLs, remainderL0]
  exact getD_map_of_lt _ pts i defaultPoint 0 h

/-- C2 witness: the first entry of the rebased two-point live set `[0, 1]`
is `exp (0 - 1)`. -/
theorem rebasedLs_rebases_by_last_witness :
    0 < ([mkpt 0, mkpt 1] : List Point).length
    ∧ (rebasedLs [mkpt 0, mkpt 1]).getD 0 0
      = Real.exp ((([mkpt 0, mkpt 1] : List Point).getD 0 defaultPoint).L
          - (([mkpt 0, mkpt 1] : List Point).getLastD defaultPoint).L) :=
  ⟨by simp, rebasedLs_rebases_by_last [mkpt 0, mkpt 1] 0 (by simp)⟩

/-- C9 counterexample: two live points both at log-likelihood `0` but with
`globalLmax = 1` (strictly above the live set): the replacement of the best
entry by `exp(globalLmax - L0)` makes the upper sum `2e` while the lower sum
is `2`, so the returned `remainderZerr` is `log(1+2e) - log 3 ≠ 0` even
though all live likelihoods are equal. -/
theorem integrate_remainder_equal_likelihoods_cex :
    (integrate_remainder [mkpt 0, mkpt 0] 0 0 0 0 1 2
      (List.replicate 20 [0])).remainderZerr ≠ 0 := by
  have hL0 : remainderL0 [mkpt 0, mkpt 0] = 0 := by
    simp [remainderL0, mkpt]
  have hLs : rebasedLs [mkpt 0, mkpt 0] = [1, 1] := by
    simp [rebasedLs, remainderL0, mkpt]
  have hMax : rebasedLsMax [mkpt 0, mkpt 0] 1 = [1, Real.exp 1] := by
    rw [rebasedLsMax, hLs, hL0]
    norm_num
  have hup : upperSum [mkpt 0, mkpt 0] 1 = Real.exp 1 + Real.exp 1 := by
    simp [upperSum, hMax]
  have hlo : lowerSum [mkpt 0, mkpt 0] = 2 := by
    norm_num [lowerSum, hLs]
  have hred : (integrate_remainder [mkpt 0, mkpt 0] 0 0 0 0 1 2
      (List.replicate 20 [0])).remainderZerr
      = logZupOf [mkpt 0, mkpt 0] 0 0 1 - logZloOf [mkpt 0, mkpt 0] 0 0 := rfl
  rw [hred, logZupOf, logZloOf, hup, hlo, hL0]
  have he : (2:ℝ) < Real.exp 1 := by
    have := Real.add_one_lt_exp (x := 1) one_ne_zero
    linarith
  have hpos : (0:ℝ) < Real.exp 1 + Real.exp 1 := by positivity
  simp only [logaddexp, Real.exp_zero, zero_add, add_zero,
    Real.exp_log hpos, Real.exp_log (by norm_num : (0:ℝ) < 2)]
  have hlt : Real.log (1 + 2) < Real.log (1 + (Real.exp 1 + Real.exp 1)) :=
    Real.log_lt_log (by norm_num) (by linarith)
  intro hzero
  rw [sub_eq_zero] at hzero
  exact absurd hzero (ne_of_gt hlt)

/-- C9 (amended): when all live log-likelihoods are equal AND the global
maximum log-likelihood equals that common value, the upper, lower and mid
estimates coincide (`logZup = logZlo = logZmid` in exact arithmetic) and the
returned `remainderZerr = logZup - logZlo` is zero. -/
theorem integrate_remainder_equal_likelihoods (n : ℕ) (c lz lw lv H : ℝ)
    (N : ℕ) (rs : List (List ℕ)) (hn : 0 < n) :
    logZupOf (constLive n c) lz lw c = logZloOf (constLive n c) lz lw
    ∧ logZloOf (constLive n c) lz lw = logZmidOf (constLive n c) lz lw
    ∧ (integrate_remainder (constLive n c) lw lv lz H c N rs).remainderZerr
      = 0 := by
  have hL0 : remainderL0 (List.replicate n (mkpt c)) = c := by
    rw [remainderL0, getLastD_replicate_eq n hn]
    rfl
  have hLs : rebasedLs (List.replicate n (mkpt c)) = List.replicate n 1 := by
    rw [rebasedLs, List.map_replicate, hL0]
    simp [mkpt]
  have hsum : ∀ k : ℕ, (List.replicate k (1:ℝ)).sum = k := by
    intro k
    rw [List.sum_replicate, nsmul_eq_mul, mul_one]
  have hcast : ((n - 1 : ℕ) : ℝ) + 1 = n := by
    rw [Nat.cast_sub hn]
    ring
  have hMax : rebasedLsMax (List.replicate n (mkpt c)) c
      = List.replicate n 1 := by
    rw [rebasedLsMax, hLs, hL0, dropLast_replicate_eq, sub_self, Real.exp_zero]
    obtain ⟨m, rfl⟩ := Nat.exists_eq_succ_of_ne_zero hn.ne'
    rw [Nat.succ_sub_one, ← List.replicate_succ' m 1]
  have hup : upperSum (List.replicate n (mkpt c)) c = n := by
    rw [upperSum, hMax, List.drop_replicate, hsum,
      getLastD_replicate_eq n hn, hcast]
  have hlo : lowerSum (List.replicate n (mkpt c)) = n := by
    rw [lowerSum, hLs, dropLast_replicate_eq, hsum,
      headD_replicate_eq n hn, hcast]
  have hmid : (rebasedLs (List.replicate n (mkpt c))).sum = n := by
    rw [hLs, hsum]
  have hupeq : logZupOf (List.replicate n (mkpt c)) lz lw c
      = logZloOf (List.replicate n (mkpt c)) lz lw := by
    rw [logZupOf, logZloOf, hup, hlo]
  have hloeq : logZloOf (List.replicate n (mkpt c)) lz lw
      = logZmidOf (List.replicate n (mkpt c)) lz lw := by
    rw [logZloOf, logZmidOf, hlo, hmid, add_assoc]
  refine ⟨?_, ?_, ?_⟩
  · simpa only [constLive] using hupeq
  · simpa only [constLive] using hloeq
  · show logZupOf (constLive n c) lz lw c - logZloOf (constLive n c) lz lw = 0
    simp only [constLive]
    rw [hupeq, sub_self]

/-- C9 witness: the coincidence of the three estimates at two equal live
points with matching global maximum. -/
theorem integrate_remainder_equal_likelihoods_witness :
    0 < 2
    ∧ (logZupOf (constLive 2 0) 0 0 0 = logZloOf (constLive 2 0) 0 0
      ∧ logZloOf (constLive 2 0) 0 0 = logZmidOf (constLive 2 0) 0 0
      ∧ (integrate_remainder (constLive 2 0) 0 0 0 0 0 1
          (List.replicate 20 [0])).remainderZerr = 0) :=
  ⟨by norm_num,
   integrate_remainder_equal_likelihoods 2 0 0 0 0 0 1
     (List.replicate 20 [0]) (by norm_num)⟩

/-- C1 counterexample: a single live point at log-likelihood `0`, with
`logwidth = logZ = 0`, caller `H = 5`, `globalLmax = 0`, `nlive = 1`.  The
post-metrics loop turns `H` into `5/2 - log 2`, so the returned `totalZerr`
is `0 + sqrt(5/2 - log 2)`, NOT `remainderZerr + sqrt(H/nlive)
= 0 + sqrt 5` as the claim (with `H` as passed in) would require. -/
theorem integrate_remainder_fold_H_cex :
    (integrate_remainder [defaultPoint] 0 0 0 5 0 1
        (List.replicate 20 [0])).totalZerr
      ≠ (integrate_remainder [defaultPoint] 0 0 0 5 0 1
        (List.replicate 20 [0])).remainderZerr + Real.sqrt (5 / 1) := by
  have hfold : (foldLive 0 5 0 [defaultPoint]).2 = 5 / 2 - Real.log 2 := by
    have h2 : Real.exp (0 - Real.log 2) = 1 / 2 := by
      rw [zero_sub, Real.exp_neg, Real.exp_log (by norm_num : (0:ℝ) < 2)]
      norm_num
    simp only [foldLive, List.foldl_cons, List.foldl_nil, merge, logaddexp,
      defaultPoint, add_zero, zero_add, Real.exp_zero]
    rw [show (1:ℝ) + 1 = 2 by norm_num, h2]
    ring
  have hzerr : (integrate_remainder [defaultPoint] 0 0 0 5 0 1
      (List.replicate 20 [0])).remainderZerr = 0 := by
    have hup : upperSum [defaultPoint] 0 = 1 := by
      simp [upperSum, rebasedLsMax, rebasedLs, remainderL0, defaultPoint]
    have hlo : lowerSum [defaultPoint] = 1 := by
      simp [lowerSum, rebasedLs, remainderL0, defaultPoint]
    show logZupOf [defaultPoint] 0 0 0 - logZloOf [defaultPoint] 0 0 = 0
    rw [logZupOf, logZloOf, hup, hlo, sub_self]
  have htot : (integrate_remainder [defaultPoint] 0 0 0 5 0 1
      (List.replicate 20 [0])).totalZerr
      = (integrate_remainder [defaultPoint] 0 0 0 5 0 1
        (List.replicate 20 [0])).remainderZerr
        + Real.sqrt ((foldLive 0 5 0 [defaultPoint]).2 / ((1:ℕ):ℝ)) := rfl
  rw [Nat.cast_one] at htot
  rw [htot, hzerr, hfold]
  have hlog2pos : (0:ℝ) < Real.log 2 := Real.log_pos (by norm_num)
  have hlog2lt : Real.log 2 < 1 := by
    have := Real.log_two_lt_d9
    linarith
  have hlt : Real.sqrt ((5 / 2 - Real.log 2) / 1) < Real.sqrt (5 / 1) := by
    apply Real.sqrt_lt_sqrt
    · rw [div_one]
      linarith
    · rw [div_one, div_one]
      linarith
  simpa using ne_of_lt hlt

/-- C1 (amended): the post-metrics loop over the live points (lines 93-98)
DOES affect the output: the returned `totalZerr` and
`totalZerr_bootstrapped` add `sqrt(H'/nlive)` where `H'` is the information
value after folding the accumulator merge over all live points starting
from the caller's `(logZ, H)`; the first three returned values are
unaffected by the loop (they do not depend on `H` at all). -/
theorem integrate_remainder_fold_H (pts : List Point)
    (lw lv lz H gl : ℝ) (N : ℕ) (rs : List (List ℕ)) (h : pts ≠ []) :
    ((integrate_remainder pts lw lv lz H gl N rs).totalZerr
        = (integrate_remainder pts lw lv lz H gl N rs).remainderZerr
          + Real.sqrt ((foldLive lz H lw pts).2 / N)
      ∧ (integrate_remainder pts lw lv lz H gl N rs).totalZerr_bootstrapped
        = bootstrapZerr pts lz lw gl rs
          + Real.sqrt ((foldLive lz H lw pts).2 / N))
    ∧ ∀ H2 : ℝ,
        (integrate_remainder pts lw lv lz H2 gl N rs).remainderZ
          = (integrate_remainder pts lw lv lz H gl N rs).remainderZ
        ∧ (integrate_remainder pts lw lv lz H2 gl N rs).remainderZerr
          = (integrate_remainder pts lw lv lz H gl N rs).remainderZerr
        ∧ (integrate_remainder pts lw lv lz H2 gl N rs).totalZ
          = (integrate_remainder pts lw lv lz H gl N rs).totalZ :=
  ⟨⟨rfl, rfl⟩, fun _ => ⟨rfl, rfl, rfl⟩⟩

/-- C1 witness: the fold-H decomposition at a concrete one-point live set. -/
theorem integrate_remainder_fold_H_witness :
    ([defaultPoint] : List Point) ≠ []
    ∧ (((integrate_remainder [defaultPoint] 0 0 0 5 0 1
            (List.replicate 20 [0])).totalZerr
          = (integrate_remainder [defaultPoint] 0 0 0 5 0 1
            (List.replicate 20 [0])).remainderZerr
            + Real.sqrt ((foldLive 0 5 0 [defaultPoint]).2 / ((1:ℕ):ℝ))
        ∧ (integrate_remainder [defaultPoint] 0 0 0 5 0 1
            (List.replicate 20 [0])).totalZerr_bootstrapped
          = bootstrapZerr [defaultPoint] 0 0 0 (List.replicate 20 [0])
            + Real.sqrt ((foldLive 0 5 0 [defaultPoint]).2 / ((1:ℕ):ℝ)))
      ∧ ∀ H2 : ℝ,
          (integrate_remainder [defaultPoint] 0 0 0 H2 0 1
              (List.replicate 20 [0])).remainderZ
            = (integrate_remainder [defaultPoint] 0 0 0 5 0 1
              (List.replicate 20 [0])).remainderZ
          ∧ (integrate_remainder [defaultPoint] 0 0 0 H2 0 1
              (List.replicate 20 [0])).remainderZerr
            = (integrate_remainder [defaultPoint] 0 0 0 5 0 1
              (List.replicate 20 [0])).remainderZerr
          ∧ (integrate_remainder [defaultPoint] 0 0 0 H2 0 1
              (List.replicate 20 [0])).totalZ
            = (integrate_remainder [defaultPoint] 0 0 0 5 0 1
              (List.replicate 20 [0])).totalZ) :=
  ⟨by simp,
   integrate_remainder_fold_H [defaultPoint] 0 0 0 5 0 1
     (List.replicate 20 [0]) (by simp)⟩

/-- C10: a step that does not break merges its freshly drawn point with mass
`logwidth + L` where `logwidth` is the width stored in the resulting state
(second conjunct); the next step then appends that point's weight record
with `logwidth - 1/nlive_points` (first conjunct) — so every recorded
logwidth after the first lags the corresponding evidence-update weight by
exactly `1/nlive_points`. -/
theorem loopIter_record_lags_merge (S : SamplerModel) (cfg : Config)
    (rand : ℕ → List (List ℕ)) (s s1 : LoopState) (hN : 0 < S.nlive_points)
    (h : loopIter S cfg rand s = (s1, none)) :
    (loopIter S cfg rand s1).1.weights
      = s1.weights ++ [(s1.cur, s1.logwidth - 1 / S.nlive_points)]
    ∧ s1.logZ = logaddexp s.logZ (s1.logwidth + s1.cur.L) := by
  simp only [loopIter] at h
  split at h
  · simp at h
  · rw [Prod.mk.injEq] at h
    obtain ⟨h1, -⟩ := h
    subst h1
    constructor
    · simp only [loopIter]
      split <;>
      · simp only [List.append_cancel_left_eq, List.cons.injEq, Prod.mk.injEq,
          and_true, true_and]
        rw [logw, logw]
        ring
    · simp [merge]

/-- C10 witness: two consecutive non-breaking iterations from the concrete
initial-style state; the second iteration records the point merged by the
first with a logwidth smaller by `1/nlive_points`. -/
theorem loopIter_record_lags_merge_witness :
    0 < sampler0.nlive_points
    ∧ loopIter sampler0 config0 rand0 state0
        = ((loopIter sampler0 config0 rand0 state0).1, none)
    ∧ ((loopIter sampler0 config0 rand0
          (loopIter sampler0 config0 rand0 state0).1).1.weights
        = (loopIter sampler0 config0 rand0 state0).1.weights
          ++ [((loopIter sampler0 config0 rand0 state0).1.cur,
               (loopIter sampler0 config0 rand0 state0).1.logwidth
                 - 1 / sampler0.nlive_points)]
      ∧ (loopIter sampler0 config0 rand0 state0).1.logZ
        = logaddexp state0.logZ
            ((loopIter sampler0 config0 rand0 state0).1.logwidth
              + (loopIter sampler0 config0 rand0 state0).1.cur.L)) := by
  have hgate : ∀ nd H m,
      checkStop ⟨1, none, false, 1, false⟩ 2 nd 1 H m = none := by
    intro nd H m
    simp [checkStop]
  have hnone : (loopIter sampler0 config0 rand0 state0).2 = none := by
    simp only [loopIter, sampler0, state0, config0, zero_add]
    rw [hgate]
  have hpair : loopIter sampler0 config0 rand0 state0
      = ((loopIter sampler0 config0 rand0 state0).1, none) :=
    Prod.ext_iff.mpr ⟨rfl, hnone⟩
  exact ⟨by decide, hpair,
    loopIter_record_lags_merge sampler0 config0 rand0 state0
      (loopIter sampler0 config0 rand0 state0).1 (by decide) hpair⟩

end
